import Mathlib

/-!
Shallow embedding of the flarelog handler (src/flarelog/main.go).

The repository is a Go `log/slog` handler that renders each record twice:
a colorized line for the console and a plain line for an append-only file.
Pure functions of the source are translated directly; the stateful
buffer/mutex discipline of `computeAttrs` is modelled as explicit state
passing; the embedded `slog` JSON encoder (standard library, outside the
repository) is modelled from its documented contract where the handler
relies on it. Machine-level details that no claim touches (JSON string
escaping, byte-level time encoding, group nesting inside the delegate
blob) are noted at the definitions that abstract them.
-/

/-- Source: `timeFormat = "[15:04:05.000]"` (main.go line 17); the layout
string passed to `r.Time.Format`. Records in the model carry the already
formatted text, since the claims only inspect it as an opaque string. -/
def timeFormat : String := "[15:04:05.000]"

/-- Source: `reset = "\033[0m"` (main.go line 19). -/
def reset : String := "\x1b[0m"

/-- ANSI color codes, main.go lines 21-36. -/
def black : Nat := 30
def red : Nat := 31
def green : Nat := 32
def yellow : Nat := 33
def blue : Nat := 34
def magenta : Nat := 35
def cyan : Nat := 36
def lightGray : Nat := 37
def darkGray : Nat := 90
def lightRed : Nat := 91
def lightGreen : Nat := 92
def lightYellow : Nat := 93
def lightBlue : Nat := 94
def lightMagenta : Nat := 95
def lightCyan : Nat := 96
def white : Nat := 97

/-- Source: `colorize` (main.go lines 39-41):
`fmt.Sprintf("\033[%sm%s%s", strconv.Itoa(colorCode), v, reset)`. -/
def colorize (colorCode : Nat) (v : String) : String :=
  "\x1b[" ++ toString colorCode ++ "m" ++ v ++ reset

/-- The `log/slog` level constants: Debug = -4, Info = 0, Warn = 4, Error = 8.
Levels are plain machine integers (`type Level int`), modelled as `Int`. -/
def levelDebug : Int := -4

/-- slog.LevelInfo. -/
def levelInfo : Int := 0

/-- slog.LevelWarn. -/
def levelWarn : Int := 4

/-- slog.LevelError. -/
def levelError : Int := 8

/-- Formats the signed offset suffix of a level name like Go's `%+d`. -/
def plusd (n : Int) : String :=
  if n < 0 then toString n else "+" ++ toString n

/-- Helper of `levelString`: Go's local `str(base, val)` returning `base`
when the offset is zero and `base%+d` otherwise. -/
def levelStrBase (base : String) (val : Int) : String :=
  if val = 0 then base else base ++ plusd val

/-- `slog.Level.String()` from the Go standard library (the delegate the
handler renders level values with): the nearest lower named level plus a
signed offset. -/
def levelString (l : Int) : String :=
  if l < levelInfo then levelStrBase "DEBUG" (l - levelDebug)
  else if l < levelWarn then levelStrBase "INFO" (l - levelInfo)
  else if l < levelError then levelStrBase "WARN" (l - levelWarn)
  else levelStrBase "ERROR" (l - levelError)

/-- Attribute values as the handler observes them: the zero `slog.Value`
(kind Any holding nil), strings, level values, and integers. Other kinds
(floats, durations, nested groups) are not exercised by any claim. -/
inductive SValue where
  | anyNil : SValue
  | str (s : String) : SValue
  | lvl (l : Int) : SValue
  | int (n : Int) : SValue
deriving DecidableEq, Repr

/-- `slog.Value.String()` on the modelled kinds; the zero value prints
like `fmt.Sprint(nil)`, that is `<nil>`. -/
def svalToString : SValue → String
  | SValue.anyNil => "<nil>"
  | SValue.str s => s
  | SValue.lvl l => levelString l
  | SValue.int n => toString n

/-- `slog.Attr`: a key and a value. -/
structure SAttr where
  key : String
  value : SValue
deriving DecidableEq, Repr

/-- The zero `slog.Attr{}` used as the suppression sentinel; `Attr.Equal`
against it is modelled by decidable equality on `SAttr`. -/
def emptyAttr : SAttr := { key := "", value := SValue.anyNil }

/-- The rewrite-hook shape `func([]string, slog.Attr) slog.Attr`. -/
abbrev Hook := List String → SAttr → SAttr

/-- `if h.r != nil { a = h.r([]string{}, a) }` as used on the three
well-known fields in `Handle` (main.go lines 92-94, 122-124, 136-138). -/
def applyHook (hook : Option Hook) (a : SAttr) : SAttr :=
  match hook with
  | none => a
  | some f => f [] a

/-- The level-colorizing chain of `Handle` (main.go lines 102-114),
transcribed branch for branch, including the final `else if` that would
leave the text unstyled were its guard ever false. -/
def styleLevel (l : Int) (s : String) : String :=
  if l ≤ levelDebug then colorize lightGray s
  else if l ≤ levelInfo then colorize cyan s
  else if l < levelWarn then colorize lightBlue s
  else if l < levelError then colorize yellow s
  else if l ≤ levelError + 1 then colorize lightRed s
  else if l > levelError + 1 then colorize lightMagenta s
  else s

/-- The color table of spec section 4.2, read as a total function: first
applicable row low-to-high, with the last row as the residual case. -/
def specLevelColor (l : Int) : Nat :=
  if l ≤ levelDebug then lightGray
  else if l ≤ levelInfo then cyan
  else if l < levelWarn then lightBlue
  else if l < levelError then yellow
  else if l ≤ levelError + 1 then lightRed
  else lightMagenta

/-- The well-known key `slog.TimeKey`. -/
def timeKey : String := "time"

/-- The well-known key `slog.LevelKey`. -/
def levelKey : String := "level"

/-- The well-known key `slog.MessageKey`. -/
def msgKey : String := "msg"

/-- The key `slog.SourceKey` emitted by the delegate when AddSource is set. -/
def sourceKey : String := "source"

/-- Source: `suppressDefaults` (main.go lines 187-201). Wraps an optional
caller hook: returns the zero attribute for the three well-known input
keys, defers to the caller hook otherwise, and is the identity when no
caller hook exists. -/
def suppressDefaults (next : Option Hook) : Hook :=
  fun groups a =>
    if a.key = timeKey ∨ a.key = levelKey ∨ a.key = msgKey then emptyAttr
    else
      match next with
      | none => a
      | some f => f groups a

/-- One log record: severity level, the time already rendered with
`timeFormat`, the message, the optional source information carried by the
record's program counter, and the attached attributes. -/
structure Record where
  level : Int
  timeFormatted : String
  message : String
  source : Option SValue
  attrs : List SAttr

/-- The embedded `slog.NewJSONHandler` delegate as configured by this
repository: minimum level (nil means Info), the AddSource flag, the
configured ReplaceAttr hook, and the attributes/groups bound by
WithAttrs/WithGroup. Modelled from the spec: the delegate itself is the
Go standard library, outside this repository; section 6 of the spec
describes it as a structured encoder honoring the handler capability set,
whose rewrite hook suppresses an attribute when it returns the sentinel. -/
structure Delegate where
  minLevel : Option Int
  addSource : Bool
  rep : Option Hook
  bound : List SAttr
  groups : List String

/-- Delegate enabled-check: `l >= minLevel` with Info as the default
minimum, per the standard handler contract. -/
def dEnabled (d : Delegate) (l : Int) : Bool :=
  (d.minLevel.getD levelInfo) ≤ l

/-- Delegate `WithAttrs`: the standard handler returns the receiver when
the added list is empty, otherwise binds the attributes. Modelled from
the spec's handler capability contract. -/
def delegateWithAttrs (d : Delegate) (as : List SAttr) : Delegate :=
  if as.isEmpty then d else { d with bound := d.bound ++ as }

/-- Delegate `WithGroup`: the standard handler contract requires that an
empty group name return the receiver; otherwise the group is appended to
the open group path. Modelled from the spec's handler capability
contract. -/
def delegateWithGroup (d : Delegate) (name : String) : Delegate :=
  if name = "" then d else { d with groups := d.groups ++ [name] }

/-- One attribute as the delegate emits it into its JSON object: the
configured rewrite hook is applied (with the current group path) and the
attribute is dropped when the result equals the zero attribute. Modelled
from the spec, section 6: returning the sentinel empty attribute
suppresses that field from all output. -/
def emitOne (rep : Option Hook) (groups : List String) (a : SAttr) :
    Option (String × SValue) :=
  let b := match rep with
           | none => a
           | some f => f groups a
  if b = emptyAttr then none else some (b.key, b.value)

/-- The attributes the delegate runs through its hook for one record, in
emission order: the three built-in fields, the source attribute when
AddSource is set and the record carries source information, the bound
attributes, then the record's own attributes. -/
def delegateAttrs (d : Delegate) (rec : Record) : List SAttr :=
  { key := timeKey, value := SValue.str rec.timeFormatted } ::
  { key := levelKey, value := SValue.lvl rec.level } ::
  { key := msgKey, value := SValue.str rec.message } ::
  ((match rec.source, d.addSource with
    | some v, true => [{ key := sourceKey, value := v }]
    | _, _ => []) ++ d.bound ++ rec.attrs)

/-- The key-value object the delegate encodes for one record at the
top-level (empty) group path — the only case the claims exercise, since
`NewHandler` starts every handler family with an empty group path and
the claims about grouped derivation are settled at the delegate level.
Nested rendering of non-empty group paths is not modelled. -/
def delegateEmit (d : Delegate) (rec : Record) : List (String × SValue) :=
  (delegateAttrs d rec).filterMap (emitOne d.rep [])

/-- The handler structure (main.go lines 43-48). The buffer `b` and mutex
`m` are pointers in the source; they are modelled as reference
identifiers, so field equality of `b` (resp. `m`) states that two
handlers alias the very same buffer (resp. mutex) object. -/
structure HandlerM where
  h : Delegate
  r : Option Hook
  b : Nat
  m : Nat

/-- `Handler.Enabled` (main.go lines 50-52): delegates verbatim. -/
def enabledM (hd : HandlerM) (l : Int) : Bool :=
  dEnabled hd.h l

/-- `Handler.WithAttrs` (main.go lines 54-56): a new handler sharing
`b`, `r`, `m` and wrapping `h.h.WithAttrs(attrs)`. -/
def withAttrsM (hd : HandlerM) (attrs : List SAttr) : HandlerM :=
  { h := delegateWithAttrs hd.h attrs, b := hd.b, r := hd.r, m := hd.m }

/-- `Handler.WithGroup` (main.go lines 58-60): a new handler sharing
`b`, `r`, `m` and wrapping `h.h.WithGroup(name)`. -/
def withGroupM (hd : HandlerM) (name : String) : HandlerM :=
  { h := delegateWithGroup hd.h name, b := hd.b, r := hd.r, m := hd.m }

/-- `slog.HandlerOptions` as consumed by `NewHandler`: minimum level,
AddSource flag, ReplaceAttr hook; every field optional/zeroable. -/
structure HandlerOptions where
  level : Option Int
  addSource : Bool
  replaceAttr : Option Hook

/-- The zero-value `slog.HandlerOptions{}`. -/
def zeroOptions : HandlerOptions :=
  { level := none, addSource := false, replaceAttr := none }

/-- Source: `NewHandler` (main.go lines 203-218). A nil options pointer is
replaced by the zero options; the delegate is a JSON handler over a fresh
buffer with the caller hook wrapped in `suppressDefaults`; the raw caller
hook is kept in `r`. The fresh buffer and mutex allocations are modelled
by the caller-chosen reference identifiers `bufId` and `mId`. -/
def newHandler (opts0 : Option HandlerOptions) (bufId mId : Nat) : HandlerM :=
  let opts := match opts0 with
              | none => zeroOptions
              | some o => o
  { h := { minLevel := opts.level, addSource := opts.addSource,
           rep := some (suppressDefaults opts.replaceAttr),
           bound := [], groups := [] },
    r := opts.replaceAttr,
    b := bufId, m := mId }

/-- Insert one field into a key-sorted field list (ascending on keys),
used to model that Go's `encoding/json` marshals map keys in sorted
order. -/
def insertByKey (p : String × SValue) :
    List (String × SValue) → List (String × SValue)
  | [] => [p]
  | q :: rest => if q.1 < p.1 then q :: insertByKey p rest else p :: q :: rest

/-- Sort an attribute mapping by key, as `json.Marshal` does for maps. -/
def sortByKey (l : List (String × SValue)) : List (String × SValue) :=
  l.foldr insertByKey []

/-- JSON string literal; escaping of special characters is elided because
no claim exercises a key or value that needs escapes. -/
def jsonStr (s : String) : String := "\"" ++ s ++ "\""

/-- JSON rendering of a modelled value: the nil any-value renders as
`null`, strings quoted, levels as their quoted textual name (slog.Level
implements MarshalJSON via its String), integers in decimal. -/
def jsonVal : SValue → String
  | SValue.anyNil => "null"
  | SValue.str s => jsonStr s
  | SValue.lvl l => jsonStr (levelString l)
  | SValue.int n => toString n

/-- The field lines of `json.MarshalIndent(attrs, "", "  ")`: each field
indented two spaces, fields joined by a comma and newline. -/
def renderFields : List (String × SValue) → String
  | [] => ""
  | [p] => "  " ++ jsonStr p.1 ++ ": " ++ jsonVal p.2
  | p :: q :: rest =>
      "  " ++ jsonStr p.1 ++ ": " ++ jsonVal p.2 ++ ",\n" ++
      renderFields (q :: rest)

/-- `json.MarshalIndent(attrs, "", "  ")` on a string-keyed map: keys
sorted, `\x7b\x7d` for the empty map, otherwise braces on their own lines
around the indented fields. Note the result is never the empty string. -/
def renderBlob (fs : List (String × SValue)) : String :=
  match sortByKey fs with
  | [] => "\x7b\x7d"
  | p :: rest => "\x7b\n" ++ renderFields (p :: rest) ++ "\n\x7d"

/-- The pretty-printing stage of `Handle` (main.go line 150) on the
success path: marshalling a mapping decoded from JSON cannot fail, so the
concrete model always succeeds with the rendered blob. `handleCore` stays
parametric in this stage so its failure can also be analyzed. -/
def marshalIndentM (attrs : List (String × SValue)) : Except String String :=
  Except.ok (renderBlob attrs)

/-- True exactly on the error constructor. -/
def isErr {α : Type} : Except String α → Bool
  | Except.error _ => true
  | Except.ok _ => false

/-- Result of `computeAttrs` (main.go lines 62-81) as a function of the
delegate-encoding outcome and the buffer-parsing function: each failure
is wrapped with the stage-naming context of the source. -/
def computeAttrsRes (encRes : Except String String)
    (parse : String → Except String (List (String × SValue))) :
    Except String (List (String × SValue)) :=
  match encRes with
  | Except.error e =>
      Except.error ("error when calling inner handler\x27s Handle: " ++ e)
  | Except.ok bs =>
      match parse bs with
      | Except.error e =>
          Except.error
            ("error when unmarshaling inner handler\x27s Handle result: " ++ e)
      | Except.ok attrs => Except.ok attrs

/-- The buffer-and-mutex state of one handler family: whether the mutex
is held and the buffer contents. -/
structure ExtState where
  locked : Bool
  buf : String
deriving DecidableEq, Repr

/-- State-passing model of `computeAttrs` (main.go lines 62-81): lock;
the delegate appends `written` to the shared buffer (and fails when
`encErr` is set); on success the buffer contents are parsed; the deferred
block resets the buffer and only then unlocks, on every exit path. The
second component lists the states after each primitive step, in order:
after Lock, after the delegate write, after the deferred Reset, after the
deferred Unlock. -/
def computeAttrsRun (written : String) (encErr : Option String)
    (parse : String → Except String (List (String × SValue)))
    (s0 : ExtState) :
    Except String (List (String × SValue)) × List ExtState :=
  let s1 : ExtState := { locked := true, buf := s0.buf }
  let s2 : ExtState := { locked := true, buf := s1.buf ++ written }
  let encRes : Except String String :=
    match encErr with
    | some e => Except.error e
    | none => Except.ok s2.buf
  (computeAttrsRes encRes parse,
   [s1, s2, { locked := true, buf := "" }, { locked := false, buf := "" }])

/-- One `computeAttrs` call description: bytes the delegate writes, its
optional failure, and the parse function for the buffer contents. -/
abbrev CallSpec :=
  String × Option String ×
    (String → Except String (List (String × SValue)))

/-- A sequence of `computeAttrs` calls on the same handler family,
threading the final state of each call into the next. -/
def runCalls : List CallSpec → ExtState → ExtState
  | [], s => s
  | (w, e, p) :: rest, s =>
      runCalls rest (((computeAttrsRun w e p s).2).getLastD s)

/-- The mapping `computeAttrs` returns on the success path for a handler
whose delegate encodes at the top-level group path: the delegate's JSON
object round-trips through the buffer unchanged (value re-decoding is
modelled as the identity; Go decodes into generic values, which no claim
distinguishes). -/
def computeAttrsMap (hd : HandlerM) (rec : Record) :
    List (String × SValue) :=
  delegateEmit hd.h rec

/-- One write to one of the two sinks. -/
inductive SinkEvent where
  | console (line : String) : SinkEvent
  | file (line : String) : SinkEvent
deriving DecidableEq, Repr

/-- Source: `Handler.Handle` (main.go lines 83-185), parametric in the
`computeAttrs` outcome and the pretty-printing stage. Transcribed in
source order: the plain builder `outForLog` receives the unstyled level
text (guarded by the sentinel check), then the still-empty `timestamp`
variable plus a space (unconditionally — the placeholder defect), then
`msgAttr.Value.String()` plus a space (unconditionally, before the
sentinel check), then the blob when non-empty. The styled line receives
the colorized timestamp, level, message (each only when non-empty, each
with a trailing space) and the dark-gray blob. The sink writes at lines
172 and 182 happen only after every error return, so an error produces no
events; the fatal path on file-open failure terminates the process and is
outside the returned-error model. -/
def handleCore (hook : Option Hook) (rec : Record)
    (computeRes : Except String (List (String × SValue)))
    (marshal : List (String × SValue) → Except String String) :
    Except String Unit × List SinkEvent :=
  let lvAttr := applyHook hook { key := levelKey, value := SValue.lvl rec.level }
  let levelAndOut :=
    if lvAttr = emptyAttr then ("", "")
    else (styleLevel rec.level (svalToString lvAttr.value ++ ":"),
          (svalToString lvAttr.value ++ ":") ++ " ")
  let level := levelAndOut.1
  let out1 := levelAndOut.2
  let tAttr := applyHook hook { key := timeKey, value := SValue.str rec.timeFormatted }
  let out2 := out1 ++ "" ++ " "
  let timestamp :=
    if tAttr = emptyAttr then "" else colorize lightGray (svalToString tAttr.value)
  let mAttr := applyHook hook { key := msgKey, value := SValue.str rec.message }
  let out3 := out2 ++ svalToString mAttr.value ++ " "
  let msg :=
    if mAttr = emptyAttr then "" else colorize white (svalToString mAttr.value)
  match computeRes with
  | Except.error e => (Except.error e, [])
  | Except.ok attrs =>
    match marshal attrs with
    | Except.error e =>
        (Except.error ("error when marshaling attrs: " ++ e), [])
    | Except.ok bs =>
      let st1 := if timestamp.length > 0 then timestamp ++ " " else ""
      let st2 := if level.length > 0 then st1 ++ level ++ " " else st1
      let st3 := if msg.length > 0 then st2 ++ msg ++ " " else st2
      let out4 := if bs.length > 0 then out3 ++ bs else out3
      let st4 := if bs.length > 0 then st3 ++ colorize darkGray bs else st3
      (Except.ok (), [SinkEvent.console st4, SinkEvent.file out4])

/-- `Handle` on the success path of attribute extraction, with the
concrete delegate emission and pretty-printer plugged in. -/
def handleFull (hd : HandlerM) (rec : Record) :
    Except String Unit × List SinkEvent :=
  handleCore hd.r rec (Except.ok (computeAttrsMap hd rec)) marshalIndentM

/-- A record with level Info, message `Info Level Log`, a concrete
formatted time, and no attributes: the end-to-end scenario record. -/
def recInfo : Record :=
  { level := 0, timeFormatted := "[10:00:00.000]", message := "Info Level Log",
    source := none, attrs := [] }

/-- A caller rewrite hook that suppresses the message field by returning
the sentinel zero attribute for the key `msg`. -/
def dropMsgHook : Hook :=
  fun _ a => if a.key = msgKey then emptyAttr else a

/-- Handler options carrying `dropMsgHook` as ReplaceAttr. -/
def optsDropMsg : HandlerOptions :=
  { level := none, addSource := false, replaceAttr := some dropMsgHook }

/-- A caller rewrite hook that renames the attribute key `foo` to the
well-known key `time`, leaving everything else unchanged. -/
def renameHook : Hook :=
  fun _ a => if a.key = "foo" then { key := timeKey, value := a.value } else a

/-- Handler options carrying `renameHook` as ReplaceAttr. -/
def optsRename : HandlerOptions :=
  { level := none, addSource := false, replaceAttr := some renameHook }

/-- A record carrying one ordinary attribute `foo = "x"`. -/
def recFoo : Record :=
  { level := 0, timeFormatted := "[10:00:00.000]", message := "m",
    source := none, attrs := [{ key := "foo", value := SValue.str "x" }] }

/-- A Warn-level record with one attribute `code = 500`. -/
def recWarn : Record :=
  { level := 4, timeFormatted := "[12:34:56.789]",
    message := "This is a warn message", source := none,
    attrs := [{ key := "code", value := SValue.int 500 }] }

/-- C3: the console color applied to the level field is a pure total
function of the level realizing exactly the spec's banded table evaluated
low-to-high; in particular Debug maps to light gray, Error to light red,
and Error+2 to light magenta. -/
theorem levelColor_matches_spec_table :
    ∀ (l : Int) (s : String),
      styleLevel l s = colorize (specLevelColor l) s ∧
      specLevelColor levelDebug = lightGray ∧
      specLevelColor levelError = lightRed ∧
      specLevelColor (levelError + 2) = lightMagenta := by
  intro l s
  refine ⟨?_, by decide, by decide, by decide⟩
  simp only [styleLevel, specLevelColor]
  split_ifs <;> first | rfl | (exfalso; omega)

/-- C1: starting from an unlocked empty buffer, every execution path of
`computeAttrs` — delegate failure, parse failure, success — keeps the
buffer empty at every moment the mutex is not held, performs the reset
under the mutex before unlocking, and ends unlocked with an empty buffer;
consequently any sequence of calls finds the buffer empty before it
begins. -/
theorem computeAttrs_buffer_invariant :
    ∀ (written : String) (encErr : Option String)
      (parse : String → Except String (List (String × SValue))),
      (∀ s, s ∈ (computeAttrsRun written encErr parse
          { locked := false, buf := "" }).2 →
        s.locked = false → s.buf = "") ∧
      (computeAttrsRun written encErr parse
          { locked := false, buf := "" }).2.getLast? =
        some { locked := false, buf := "" } ∧
      ∀ specs : List CallSpec,
        runCalls specs { locked := false, buf := "" } =
          { locked := false, buf := "" } := by
  intro w e p
  refine ⟨?_, rfl, ?_⟩
  · intro s hs hlock
    simp [computeAttrsRun] at hs
    rcases hs with h | h | h | h <;> subst h <;> simp_all
  · intro specs
    induction specs with
    | nil => rfl
    | cons sp rest ih =>
        obtain ⟨w', e', p'⟩ := sp
        exact ih

/-- C1 witness: the invariant instantiated on a failing delegate call
that wrote three bytes: the call still ends unlocked with an empty
buffer. -/
theorem computeAttrs_buffer_invariant_witness :
    (computeAttrsRun "abc" (some "boom") (fun _ => Except.ok [])
        { locked := false, buf := "" }).2.getLast? =
      some { locked := false, buf := "" } ∧
    ExtState.buf { locked := false, buf := "" } = "" :=
  ⟨(computeAttrs_buffer_invariant "abc" (some "boom")
      (fun _ => Except.ok [])).2.1,
   (computeAttrs_buffer_invariant "abc" (some "boom")
      (fun _ => Except.ok [])).1 { locked := false, buf := "" }
      (by decide) rfl⟩

/-- C2 counterexample: with a caller-supplied rewrite hook that renames
the ordinary attribute `foo` to the well-known key `time`, the mapping
`computeAttrs` produces for a NewHandler-built handler does contain the
key `time`: the wrapped hook checks only the input key before deferring,
so the caller hook's output key is never re-checked. -/
theorem computeAttrs_suppression_counterexample :
    (timeKey, SValue.str "x") ∈
      computeAttrsMap (newHandler (some optsRename) 0 0) recFoo := by
  decide

/-- C2 (amended): for every record handled by a NewHandler-built handler,
the mapping produced by `computeAttrs` contains none of the keys `time`,
`level`, `msg`, provided the wrapped rewrite hook only ever returns the
sentinel or an attribute whose key is none of the three — which holds in
particular when no caller hook is supplied, and fails only for caller
hooks that themselves return one of the well-known keys. -/
theorem computeAttrs_suppression_amended :
    ∀ (u : Option Hook) (hd : HandlerM) (rec : Record),
      hd.h.rep = some (suppressDefaults u) →
      (∀ gs a, suppressDefaults u gs a = emptyAttr ∨
        ((suppressDefaults u gs a).key ≠ timeKey ∧
         (suppressDefaults u gs a).key ≠ levelKey ∧
         (suppressDefaults u gs a).key ≠ msgKey)) →
      ∀ k v, (k, v) ∈ computeAttrsMap hd rec →
        k ≠ timeKey ∧ k ≠ levelKey ∧ k ≠ msgKey := by
  intro u hd rec hrep hu k v hmem
  unfold computeAttrsMap delegateEmit at hmem
  rw [List.mem_filterMap] at hmem
  obtain ⟨a, -, hea⟩ := hmem
  rw [hrep] at hea
  by_cases hz : suppressDefaults u [] a = emptyAttr
  · simp [emitOne, hz] at hea
  · rcases hu [] a with h | h
    · exact absurd h hz
    · simp only [emitOne, if_neg hz, Option.some.injEq, Prod.mk.injEq] at hea
      obtain ⟨hk, -⟩ := hea
      exact hk ▸ h

/-- C2 witness: the amended suppression theorem applied to the handler
with no caller hook and the record carrying `foo = "x"`: the key `time`
cannot appear in the computed mapping. -/
theorem computeAttrs_suppression_amended_witness :
    ¬ (timeKey, SValue.str "x") ∈
        computeAttrsMap (newHandler none 0 0) recFoo := by
  intro hmem
  have h := computeAttrs_suppression_amended none (newHandler none 0 0) recFoo
    rfl
    (by
      intro gs a
      by_cases hk : a.key = timeKey ∨ a.key = levelKey ∨ a.key = msgKey
      · left
        simp [suppressDefaults, hk]
      · right
        push_neg at hk
        obtain ⟨h1, h2, h3⟩ := hk
        have hcond : ¬(a.key = timeKey ∨ a.key = levelKey ∨ a.key = msgKey) := by
          intro hc
          rcases hc with hc | hc | hc
          exacts [h1 hc, h2 hc, h3 hc]
        simp only [suppressDefaults, if_neg hcond]
        exact ⟨h1, h2, h3⟩)
    timeKey (SValue.str "x") hmem
  exact h.1 rfl

/-- C4: `Handle` returns an error exactly when the delegate encoding
fails, the buffer contents fail to parse, or pretty-printing fails; the
first two are wrapped with the stage-naming context of the source; and on
every error return nothing has been written to either sink. -/
theorem handle_error_paths :
    ∀ (hook : Option Hook) (rec : Record) (encRes : Except String String)
      (parse : String → Except String (List (String × SValue)))
      (marshal : List (String × SValue) → Except String String),
      (isErr (handleCore hook rec (computeAttrsRes encRes parse) marshal).1 =
        (match encRes with
         | Except.error _ => true
         | Except.ok bs =>
           match parse bs with
           | Except.error _ => true
           | Except.ok attrs => isErr (marshal attrs))) ∧
      (∀ e, encRes = Except.error e →
        (handleCore hook rec (computeAttrsRes encRes parse) marshal).1 =
          Except.error
            ("error when calling inner handler\x27s Handle: " ++ e)) ∧
      (∀ bs e, encRes = Except.ok bs → parse bs = Except.error e →
        (handleCore hook rec (computeAttrsRes encRes parse) marshal).1 =
          Except.error
            ("error when unmarshaling inner handler\x27s Handle result: "
              ++ e)) ∧
      (isErr (handleCore hook rec (computeAttrsRes encRes parse) marshal).1 =
          true →
        (handleCore hook rec (computeAttrsRes encRes parse) marshal).2 =
          []) := by
  intro hook rec encRes parse marshal
  refine ⟨?_, ?_, ?_, ?_⟩
  · cases encRes with
    | error e => rfl
    | ok bs =>
      cases hp : parse bs with
      | error e => simp [handleCore, computeAttrsRes, isErr, hp]
      | ok attrs =>
        cases hm : marshal attrs with
        | error e => simp [handleCore, computeAttrsRes, isErr, hp, hm]
        | ok bs2 => simp [handleCore, computeAttrsRes, isErr, hp, hm]
  · intro e he
    subst he
    rfl
  · intro bs e hb hp
    subst hb
    simp [handleCore, computeAttrsRes, hp]
  · intro herr
    cases encRes with
    | error e => rfl
    | ok bs =>
      cases hp : parse bs with
      | error e => simp [handleCore, computeAttrsRes, hp]
      | ok attrs =>
        cases hm : marshal attrs with
        | error e => simp [handleCore, computeAttrsRes, hp, hm]
        | ok bs2 =>
          simp [handleCore, computeAttrsRes, isErr, hp, hm] at herr

/-- C4 witness: a failing delegate call on a concrete record returns the
wrapped error with no sink write. -/
theorem handle_error_paths_witness :
    (handleCore none
        { level := 0, timeFormatted := "", message := "", source := none,
          attrs := [] }
        (computeAttrsRes (Except.error "boom") (fun _ => Except.ok []))
        marshalIndentM).2 = [] :=
  (handle_error_paths none
      { level := 0, timeFormatted := "", message := "", source := none,
        attrs := [] }
      (Except.error "boom") (fun _ => Except.ok [])
      marshalIndentM).2.2.2 (by rfl)

/-- C5 (code bug): at the failing input — a NewHandler-built handler
whose caller hook suppresses the message field, handling the Info-level
record — the styled console line correctly omits the message, but the
plain file line still receives the sentinel text `<nil>` plus a space for
the suppressed message (and the unconditional empty placeholder plus
space of the timestamp slot): the source writes
`msgAttr.Value.String()` to the plain builder before the sentinel check. -/
theorem handle_suppressed_msg_leaks_plain :
    (handleFull (newHandler (some optsDropMsg) 0 0) recInfo).2 =
      [SinkEvent.console
        (colorize lightGray "[10:00:00.000]" ++ " " ++
         colorize cyan "INFO:" ++ " " ++ colorize darkGray "\x7b\x7d"),
       SinkEvent.file "INFO:  <nil> \x7b\x7d"] := by
  rfl

/-- C6 (code bug): at the failing input — the default handler on a Warn
record with one attribute — the plain file line is the level text, a
double space where the timestamp value never appears (the `timestamp`
variable is written while still empty), the message, and the blob; the
second conjunct shows the line contains no left-bracket character, hence
neither the formatted timestamp (which starts with one) nor any ANSI
escape sequence (which always contains one). -/
theorem handle_plain_line_missing_timestamp :
    (handleFull (newHandler none 0 0) recWarn).2 =
      [SinkEvent.console
        (colorize lightGray "[12:34:56.789]" ++ " " ++
         colorize yellow "WARN:" ++ " " ++
         colorize white "This is a warn message" ++ " " ++
         colorize darkGray "\x7b\n  \"code\": 500\n\x7d"),
       SinkEvent.file
        ("WARN:  This is a warn message " ++ "\x7b\n  \"code\": 500\n\x7d")] ∧
    ("WARN:  This is a warn message " ++
      "\x7b\n  \"code\": 500\n\x7d").data.contains '[' = false := by
  exact ⟨rfl, by decide⟩

/-- C7 counterexample: on the Info scenario record the empty mapping
pretty-prints to the non-empty blob and the styled console line does end
with that blob colorized dark gray, refuting the claimed absence of an
attribute blob suffix. -/
theorem handle_info_blob_counterexample :
    (handleFull (newHandler none 0 0) recInfo).2.head? =
      some (SinkEvent.console
        ((colorize lightGray "[10:00:00.000]" ++ " " ++
          colorize cyan "INFO:" ++ " " ++
          colorize white "Info Level Log" ++ " ") ++
         colorize darkGray (renderBlob []))) ∧
    colorize darkGray (renderBlob []) ≠ "" := by
  exact ⟨rfl, by decide⟩

/-- C7 (amended): on the Info scenario record the styled console line
contains the light-gray timestamp, cyan `INFO:`, white message, and then
the dark-gray blob `\x7b\x7d`: the empty mapping pretty-prints to a
two-character blob, which is appended to both lines rather than
contributing nothing. -/
theorem handle_info_scenario_amended :
    (handleFull (newHandler none 0 0) recInfo).2 =
      [SinkEvent.console
        (colorize lightGray "[10:00:00.000]" ++ " " ++
         colorize cyan "INFO:" ++ " " ++
         colorize white "Info Level Log" ++ " " ++
         colorize darkGray "\x7b\x7d"),
       SinkEvent.file ("INFO:  Info Level Log " ++ "\x7b\x7d")] := by
  rfl

/-- C8: `WithAttrs` and `WithGroup` return a handler whose buffer
reference, mutex reference, and rewrite hook are identical to the
receiver's, and whose only differing field is the delegate, pre-bound
with the attributes or pre-scoped to the group. -/
theorem withAttrs_withGroup_frame :
    ∀ (hd : HandlerM) (attrs : List SAttr) (name : String),
      (withAttrsM hd attrs).b = hd.b ∧ (withAttrsM hd attrs).m = hd.m ∧
      (withAttrsM hd attrs).r = hd.r ∧
      (withAttrsM hd attrs).h = delegateWithAttrs hd.h attrs ∧
      (withGroupM hd name).b = hd.b ∧ (withGroupM hd name).m = hd.m ∧
      (withGroupM hd name).r = hd.r ∧
      (withGroupM hd name).h = delegateWithGroup hd.h name := by
  intro hd attrs name
  exact ⟨rfl, rfl, rfl, rfl, rfl, rfl, rfl, rfl⟩

/-- C9: `WithAttrs []` and `WithGroup ""` yield handlers behaviorally
equivalent to the original: same enabled-check and same `Handle` result
and sink output on every subsequent record. -/
theorem withAttrs_empty_withGroup_empty_equiv :
    ∀ (hd : HandlerM) (lvl : Int) (rec : Record),
      enabledM (withAttrsM hd []) lvl = enabledM hd lvl ∧
      handleFull (withAttrsM hd []) rec = handleFull hd rec ∧
      enabledM (withGroupM hd "") lvl = enabledM hd lvl ∧
      handleFull (withGroupM hd "") rec = handleFull hd rec := by
  intro hd lvl rec
  have ha : withAttrsM hd [] = hd := by
    cases hd
    simp [withAttrsM, delegateWithAttrs]
  have hg : withGroupM hd "" = hd := by
    cases hd
    simp [withGroupM, delegateWithGroup]
  rw [ha, hg]
  exact ⟨rfl, rfl, rfl, rfl⟩

/-- C10: `NewHandler` of a nil options pointer equals `NewHandler` of the
zero-value options — same minimum level (none), no source locations, no
rewrite hook — so the constructor is total over its input including nil. -/
theorem newHandler_nil_options :
    ∀ (bufId mId : Nat),
      newHandler none bufId mId = newHandler (some zeroOptions) bufId mId := by
  intro bufId mId
  rfl
